import Mathlib

/-!
Shallow embedding of the Students API backend (src/app): the SQLAlchemy rows
become Lean structures, the database session becomes an explicit `DB` state,
and each request handler becomes a pure function of its inputs, the
nondeterministic values the handler draws (generated ids, generated tokens,
the current clock) being passed as extra arguments. Timestamps are modelled
as natural numbers; `isoformat` on a timestamp is the identity of that
number. HTTP error responses (`HTTPException`) are modelled by an explicit
error value carrying status code and detail string.
-/

/-- JSON-like payload values, standing for the arbitrary `Dict[str, Any]`
payloads the submission endpoints accept. -/
inductive JsonVal where
  | jNull : JsonVal
  | jBool : Bool → JsonVal
  | jNum : Int → JsonVal
  | jStr : String → JsonVal
  | jArr : List JsonVal → JsonVal
  | jObj : List (String × JsonVal) → JsonVal

/-- Row of the `students` table (src/app/models.py, class Student). -/
structure Student where
  id : String
  dob : Option String
  phone : Option String
  name : Option String
  edit_token : String
  version : Nat
  updated_at : Nat
deriving DecidableEq, Repr

/-- The snapshot dict built in `update_student` (src/app/main.py lines
376-383): a structural copy of the pre-update Student fields, with
`updated_at` rendered through `isoformat` when the column is non-null. -/
structure Snapshot where
  id : String
  dob : Option String
  phone : Option String
  name : Option String
  version : Nat
  updated_at : Option Nat
deriving DecidableEq, Repr

/-- Row of the `student_history` table (src/app/models.py, class
StudentHistory); the autoincrement surrogate key is represented by the
row's position in `DB.history`. -/
structure StudentHistory where
  student_id : String
  version : Nat
  snapshot : Snapshot
  changed_at : Nat
deriving DecidableEq, Repr

/-- Row of the `submissions` table (src/app/models.py, class Submission). -/
structure Submission where
  id : String
  google_sub : Option String
  payload : List (String × JsonVal)
  created_at : Nat

/-- The relational store: the three tables the handlers under scrutiny
touch, each as an insertion-ordered list of rows. -/
structure DB where
  students : List Student
  history : List StudentHistory
  submissions : List Submission

/-- The empty store, as after `Base.metadata.create_all`. -/
def dbEmpty : DB := ⟨[], [], []⟩

/-- Request body of POST /students (src/app/schemas.py, StudentCreate). -/
structure StudentCreate where
  name : Option String
deriving DecidableEq, Repr

/-- Response of POST /students (schemas.py, StudentCreatedOut): the only
response shape that carries `edit_token`. -/
structure StudentCreatedOut where
  id : String
  name : Option String
  version : Nat
  updated_at : Nat
  edit_token : String
deriving DecidableEq, Repr

/-- Response of GET and PUT /students/{id} (schemas.py, StudentOut): no
`edit_token` field exists in this shape. -/
structure StudentOut where
  id : String
  name : Option String
  version : Nat
  updated_at : Nat
deriving DecidableEq, Repr

/-- Request body of PUT /students/{id} (schemas.py, StudentUpdate). -/
structure StudentUpdate where
  edit_token : String
  name : Option String
deriving DecidableEq, Repr

/-- Request body of POST /submissions (schemas.py, SubmissionIn). -/
structure SubmissionIn where
  payload : List (String × JsonVal)

/-- Response shape for submissions (schemas.py, SubmissionOut). -/
structure SubmissionOut where
  id : String
  created_at : Nat
  payload : List (String × JsonVal)

/-- An HTTPException raised by a handler: status code plus detail. -/
structure HTTPError where
  status : Nat
  detail : String
deriving DecidableEq, Repr

/-- The session user info shape (src/app/main.py, class UserInfo). -/
structure UserInfo where
  sub : String
  email : Option String
  name : Option String
  picture : Option String
deriving DecidableEq, Repr

/-- An inbound HTTP request, opaque to the handlers modelled here: none of
them reads anything from it. -/
structure Request where
  unit : Unit

/-- Python `a or b` on integers: `a` when truthy (non-zero), else `b`.
Used by `update_student` as `(obj.version or 1)`. -/
def pyOrNat (a b : Nat) : Nat := if a = 0 then b else a

/-- get_current_user (src/app/main.py lines 132-134): authentication is
disabled, every caller is anonymous. -/
def get_current_user (_request : Request) : Option UserInfo := none

/-- create_student (src/app/main.py lines 271-294): POST /students. The
generated random id, the generated edit token and the clock reading are
passed in as `gid`, `tok`, `now`. Builds a Student with version 1, adds it
to the store, and returns the creation response carrying the edit token. -/
def create_student (payload : StudentCreate) (gid tok : String) (now : Nat)
    (db : DB) : DB × StudentCreatedOut :=
  let student : Student :=
    { id := gid, dob := none, phone := none, name := payload.name,
      edit_token := tok, version := 1, updated_at := now }
  ({ db with students := db.students ++ [student] },
   { id := student.id, name := student.name, version := student.version,
     updated_at := student.updated_at, edit_token := tok })

/-- get_student (src/app/main.py lines 297-307): GET /students/{id}.
`db.get(Student, student_id)` is primary-key lookup, modelled by `find?`
on the id. Read-only; the response shape has no edit_token field. -/
def get_student (student_id : String) (db : DB) : Except HTTPError StudentOut :=
  match db.students.find? (fun s => s.id == student_id) with
  | none => .error ⟨404, "student not found"⟩
  | some obj => .ok ⟨obj.id, obj.name, obj.version, obj.updated_at⟩

/-- update_student (src/app/main.py lines 365-400): PUT /students/{id}.
Returns the store after the call together with the handler's outcome; on
the two error paths the store is returned unchanged, since the handler
raises before any `db.add`. On success it appends one history row holding
the pre-update snapshot, then applies the name update (only when the
payload provides one), sets `version = (version or 1) + 1` and
`updated_at = now`. -/
def update_student (student_id : String) (payload : StudentUpdate) (now : Nat)
    (db : DB) : DB × Except HTTPError StudentOut :=
  match db.students.find? (fun s => s.id == student_id) with
  | none => (db, .error ⟨404, "student not found"⟩)
  | some obj =>
    if obj.edit_token ≠ payload.edit_token then
      (db, .error ⟨403, "invalid edit token"⟩)
    else
      let snapshot : Snapshot :=
        ⟨obj.id, obj.dob, obj.phone, obj.name, obj.version, some obj.updated_at⟩
      let hist : StudentHistory := ⟨obj.id, obj.version, snapshot, now⟩
      let obj' : Student :=
        { obj with
          name := match payload.name with
                  | some n => some n
                  | none => obj.name,
          version := pyOrNat obj.version 1 + 1,
          updated_at := now }
      ({ db with
         students := db.students.map (fun s => if s.id = student_id then obj' else s),
         history := db.history ++ [hist] },
       .ok ⟨obj'.id, obj'.name, obj'.version, obj'.updated_at⟩)

/-- create_submission (src/app/main.py lines 311-319): POST /submissions.
The generated id and the clock are passed in. The stored row always has
`google_sub = None`; the request is never consulted. -/
def create_submission (payload : SubmissionIn) (_request : Request)
    (gid : String) (now : Nat) (db : DB) : DB × SubmissionOut :=
  let subm : Submission := ⟨gid, none, payload.payload, now⟩
  ({ db with submissions := db.submissions ++ [subm] },
   ⟨subm.id, subm.created_at, subm.payload⟩)

/-- Ordering used by list_submissions: `ORDER BY created_at DESC`. -/
def submDesc (a b : Submission) : Prop := b.created_at ≤ a.created_at

instance : DecidableRel submDesc := fun a b => Nat.decLe b.created_at a.created_at

instance : IsTotal Submission submDesc :=
  ⟨fun a b => by unfold submDesc; exact Nat.le_total _ _⟩

instance : IsTrans Submission submDesc :=
  ⟨fun _ _ _ h1 h2 => Nat.le_trans h2 h1⟩

/-- Projection of a stored submission to its response shape, with
`created_at` through `iso_utc`. -/
def toSubmissionOut (r : Submission) : SubmissionOut := ⟨r.id, r.created_at, r.payload⟩

/-- list_submissions (src/app/main.py lines 322-331): GET /submissions.
Orders the stored submissions newest first by `created_at`, keeps at most
50, and projects each to the response shape. -/
def list_submissions (_request : Request) (db : DB) : List SubmissionOut :=
  ((List.insertionSort submDesc db.submissions).take 50).map toSubmissionOut

/-- Python `s.isdigit()` restricted to the ASCII digits the validated
inputs use: true on a non-empty all-digit string. -/
def isPyDigitStr (s : String) : Bool := s.length != 0 && s.data.all Char.isDigit

/-- build_student_id (src/app/utils.py lines 1-10): validates dob as an
8-digit string and phone as a digits-only string of length at least 7 (no
upper length bound is checked), then returns the plain concatenation.
`raise ValueError` becomes the error branch of `Except`. -/
def build_student_id (dob phone : String) : Except String String :=
  if ¬ (dob.length = 8 ∧ isPyDigitStr dob) then
    .error "Invalid dob: expect YYYYMMDD digits"
  else if ¬ (isPyDigitStr phone ∧ 7 ≤ phone.length) then
    .error "Invalid phone: expect digits only >=7 length"
  else
    .ok (dob ++ phone)

/-- The dob precondition as the spec words it: matches `^\d\x7b8\x7d$`. -/
def specDobOk (s : String) : Bool := s.length = 8 && s.data.all Char.isDigit

/-- The phone precondition as the spec words it: matches `^\d\x7b7,20\x7d$`,
digits only with length at least 7 and at most 20. -/
def specPhoneOk (s : String) : Bool :=
  s.data.all Char.isDigit && 7 ≤ s.length && s.length ≤ 20

/-- History rows of one record, in insertion order (src filter by
`student_id`). -/
def historyFor (db : DB) (sid : String) : List StudentHistory :=
  db.history.filter (fun e => e.student_id == sid)

/-- Ids of the stored students, in insertion order. -/
def idsOf (db : DB) : List String := db.students.map Student.id

/-- Store states reachable through the modelled handlers, starting from the
empty store. Creation consumes a generated id that is fresh (the primary
key constraint on `students.id` makes a duplicate insert fail, so a
successful create implies freshness); updates cover the not-found, the
bad-token and the success path alike, since the handler returns the store
in every case. -/
inductive Reachable : DB → Prop where
  | init : Reachable dbEmpty
  | create {db : DB} (payload : StudentCreate) (gid tok : String) (now : Nat) :
      Reachable db → gid ∉ idsOf db →
      Reachable (create_student payload gid tok now db).1
  | update {db : DB} (sid : String) (payload : StudentUpdate) (now : Nat) :
      Reachable db → Reachable (update_student sid payload now db).1
  | submit {db : DB} (payload : SubmissionIn) (req : Request) (gid : String) (now : Nat) :
      Reachable db → Reachable (create_submission payload req gid now db).1

/-- The store invariant behind claim C1: student ids are pairwise distinct
(the primary key), every stored student has version at least 1, the history
rows of each student carry exactly the versions 1, 2, ..., version - 1 in
order, and every history row points at a stored student. -/
def StoreInv (db : DB) : Prop :=
  (idsOf db).Nodup
  ∧ (∀ s ∈ db.students, 1 ≤ s.version
      ∧ (historyFor db s.id).map StudentHistory.version = List.range' 1 (s.version - 1))
  ∧ (∀ e ∈ db.history, e.student_id ∈ idsOf db)

lemma storeInv_empty : StoreInv dbEmpty := by
  refine ⟨?_, ?_, ?_⟩ <;> simp [dbEmpty, idsOf]

lemma storeInv_create {db : DB} (payload : StudentCreate) (gid tok : String) (now : Nat)
    (hInv : StoreInv db) (hfresh : gid ∉ idsOf db) :
    StoreInv (create_student payload gid tok now db).1 := by
  obtain ⟨h1, h2, h3⟩ := hInv
  refine ⟨?_, ?_, ?_⟩
  · simp only [create_student, idsOf, List.map_append, List.map_cons, List.map_nil]
    rw [List.nodup_append]
    refine ⟨h1, by simp, ?_⟩
    intro a ha hb
    simp only [List.mem_cons, List.not_mem_nil, or_false] at hb
    exact hfresh (hb ▸ ha)
  · intro s hs
    simp only [create_student, List.mem_append, List.mem_cons, List.not_mem_nil,
      or_false] at hs
    have hhist : ∀ x, historyFor (create_student payload gid tok now db).1 x
        = historyFor db x := by
      intro x; rfl
    rcases hs with hs | hs
    · rw [hhist]; exact h2 s hs
    · subst hs
      rw [hhist]
      refine ⟨le_refl 1, ?_⟩
      have hempty : historyFor db gid = [] := by
        rw [historyFor, List.filter_eq_nil_iff]
        intro e he
        simp only [beq_iff_eq]
        intro hcontra
        exact hfresh (hcontra ▸ h3 e he)
      simp [hempty]
  · intro e he
    have he' : e ∈ db.history := he
    have := h3 e he'
    simp only [create_student, idsOf, List.map_append] at *
    exact List.mem_append_left _ this

lemma storeInv_submit {db : DB} (payload : SubmissionIn) (req : Request) (gid : String)
    (now : Nat) (hInv : StoreInv db) :
    StoreInv (create_submission payload req gid now db).1 := hInv

lemma filter_singleton_hist (h : StudentHistory) (x : String) :
    List.filter (fun e => e.student_id == x) [h]
      = if h.student_id = x then [h] else [] := by
  by_cases hc : h.student_id = x <;> simp [hc]

lemma storeInv_update {db : DB} (sid : String) (payload : StudentUpdate) (now : Nat)
    (hInv : StoreInv db) : StoreInv (update_student sid payload now db).1 := by
  obtain ⟨h1, h2, h3⟩ := hInv
  unfold update_student
  cases hfind : db.students.find? (fun s => s.id == sid) with
  | none => exact ⟨h1, h2, h3⟩
  | some obj =>
    dsimp only
    by_cases htok : obj.edit_token ≠ payload.edit_token
    · rw [if_pos htok]
      exact ⟨h1, h2, h3⟩
    · rw [if_neg htok]
      have hobj : obj ∈ db.students := List.mem_of_find?_eq_some hfind
      have hid : obj.id = sid := by
        have := List.find?_some hfind
        exact beq_iff_eq.mp this
      have hv1 : 1 ≤ obj.version := (h2 obj hobj).1
      have hvne : obj.version ≠ 0 := by omega
      -- the updated row and the history row, as built in the handler
      set obj' : Student :=
        { obj with
          name := match payload.name with
                  | some n => some n
                  | none => obj.name,
          version := pyOrNat obj.version 1 + 1,
          updated_at := now } with hobj'
      have hverState : obj'.version = obj.version + 1 := by
        simp [hobj', pyOrNat, hvne]
      have hidState : obj'.id = obj.id := rfl
      set hist : StudentHistory :=
        ⟨obj.id, obj.version, ⟨obj.id, obj.dob, obj.phone, obj.name, obj.version,
          some obj.updated_at⟩, now⟩ with hhist
      have histId : hist.student_id = obj.id := rfl
      have histVer : hist.version = obj.version := rfl
      -- replacing the target row leaves every id in place
      have hfid : ∀ s : Student,
          ((if s.id = sid then obj' else s)).id = s.id := by
        intro s
        by_cases hc : s.id = sid
        · simp [hc, hidState, hid]
        · simp [hc]
      have hids : (db.students.map (fun s => if s.id = sid then obj' else s)).map
          Student.id = idsOf db := by
        rw [List.map_map, idsOf]
        exact List.map_congr_left (fun a _ => hfid a)
      refine ⟨?_, ?_, ?_⟩
      · show ((db.students.map fun s => if s.id = sid then obj' else s).map
          Student.id).Nodup
        rw [hids]; exact h1
      · intro s'' hs''
        simp only [List.mem_map] at hs''
        obtain ⟨s, hs, hfs⟩ := hs''
        have hfilter : ∀ x, (List.filter (fun e => e.student_id == x)
            (db.history ++ [hist])) = historyFor db x
              ++ List.filter (fun e => e.student_id == x) [hist] := by
          intro x; rw [List.filter_append]; rfl
        by_cases hc : s.id = sid
        · have hs''obj' : s'' = obj' := by rw [← hfs, if_pos hc]
          subst hs''obj'
          refine ⟨?_, ?_⟩
          · rw [hverState]; omega
          · show (List.filter (fun e => e.student_id == obj'.id)
              (db.history ++ [hist])).map StudentHistory.version
                = List.range' 1 (obj'.version - 1)
            rw [hfilter]
            have hsingle : List.filter (fun e => e.student_id == obj'.id) [hist]
                = [hist] := by
              rw [filter_singleton_hist, if_pos]
              rw [histId, hidState]
            rw [hsingle, List.map_append, hidState, (h2 obj hobj).2, hverState]
            have hmap1 : List.map StudentHistory.version [hist] = [obj.version] := by
              rw [List.map_cons, List.map_nil, histVer]
            rw [hmap1]
            have hconcat : List.range' 1 (obj.version - 1 + 1)
                = List.range' 1 (obj.version - 1) ++ [1 + (obj.version - 1)] :=
              List.range'_1_concat 1 (obj.version - 1)
            have heq1 : obj.version - 1 + 1 = obj.version := by omega
            have heq2 : 1 + (obj.version - 1) = obj.version := by omega
            rw [heq1, heq2] at hconcat
            have heq3 : obj.version + 1 - 1 = obj.version := by omega
            rw [heq3]
            exact hconcat.symm
        · have hs''s : s'' = s := by rw [← hfs, if_neg hc]
          subst hs''s
          obtain ⟨hv, hr⟩ := h2 s'' hs
          refine ⟨hv, ?_⟩
          show (List.filter (fun e => e.student_id == s''.id)
            (db.history ++ [hist])).map StudentHistory.version
              = List.range' 1 (s''.version - 1)
          rw [hfilter]
          have hsingle : List.filter (fun e => e.student_id == s''.id) [hist]
              = [] := by
            rw [filter_singleton_hist, if_neg]
            rw [histId, hid]
            exact fun hcontra => hc hcontra.symm
          rw [hsingle, List.append_nil]
          exact hr
      · intro e he
        simp only [List.mem_append, List.mem_cons, List.not_mem_nil, or_false] at he
        show e.student_id ∈ (db.students.map fun s =>
          if s.id = sid then obj' else s).map Student.id
        rw [hids]
        rcases he with he | he
        · exact h3 e he
        · subst he
          rw [histId, hid]
          rw [← hid]
          exact List.mem_map_of_mem Student.id hobj

/-- Every reachable store satisfies the invariant. -/
lemma reachable_inv {db : DB} (h : Reachable db) : StoreInv db := by
  induction h with
  | init => exact storeInv_empty
  | create payload gid tok now _ hfresh ih => exact storeInv_create payload gid tok now ih hfresh
  | update sid payload now _ ih => exact storeInv_update sid payload now ih
  | submit payload req gid now _ ih => exact storeInv_submit payload req gid now ih

/-- C1: in every reachable store state, the history rows of each stored
record carry exactly the contiguous versions 1, 2, ..., version - 1, in
order (so also sorted by version), with no gaps and no duplicates, and
hence the record's version equals its history count plus 1. Preservation
under record creation and under successful or failed updates is inherent
in `Reachable`, whose constructors are exactly those operations (a failed
update returns the store unchanged). -/
theorem history_version_invariant (db : DB) (h : Reachable db) :
    ∀ s ∈ db.students,
      (historyFor db s.id).map StudentHistory.version = List.range' 1 (s.version - 1)
      ∧ s.version = (historyFor db s.id).length + 1 := by
  obtain ⟨-, h2, -⟩ := reachable_inv h
  intro s hs
  obtain ⟨hv, hr⟩ := h2 s hs
  refine ⟨hr, ?_⟩
  have hlen := congrArg List.length hr
  rw [List.length_map, List.length_range'] at hlen
  omega

theorem history_version_invariant_instance :
    (historyFor ((update_student "id1" ⟨"tok1", some "Alicia"⟩ 1
        (create_student ⟨some "Alice"⟩ "id1" "tok1" 0 dbEmpty).1).1) "id1").map
          StudentHistory.version = List.range' 1 1
    ∧ (2 : Nat) = (historyFor ((update_student "id1" ⟨"tok1", some "Alicia"⟩ 1
        (create_student ⟨some "Alice"⟩ "id1" "tok1" 0 dbEmpty).1).1) "id1").length + 1 :=
  history_version_invariant _
    (Reachable.update "id1" ⟨"tok1", some "Alicia"⟩ 1
      (Reachable.create ⟨some "Alice"⟩ "id1" "tok1" 0 Reachable.init (by decide)))
    ⟨"id1", none, none, some "Alicia", "tok1", 2, 1⟩ (by decide)

/-- C2: a successful update of a present record appends exactly one history
row tagged with the pre-update version and holding a structural copy of the
pre-update fields (id, dob, phone, name, version, updated_at), then bumps
the version by exactly 1 and sets updated_at to the clock reading; nothing
else in the store is touched. -/
theorem update_success_appends_snapshot (sid : String) (p : StudentUpdate)
    (now : Nat) (db : DB) (obj : Student)
    (hfind : db.students.find? (fun s => s.id == sid) = some obj)
    (htok : obj.edit_token = p.edit_token)
    (hver : 1 ≤ obj.version) :
    (update_student sid p now db).1.history
      = db.history ++ [⟨obj.id, obj.version,
          ⟨obj.id, obj.dob, obj.phone, obj.name, obj.version, some obj.updated_at⟩, now⟩]
    ∧ (update_student sid p now db).2
      = .ok ⟨obj.id, (match p.name with | some n => some n | none => obj.name),
          obj.version + 1, now⟩
    ∧ (update_student sid p now db).1.students
      = db.students.map (fun s => if s.id = sid then
          { obj with
            name := match p.name with | some n => some n | none => obj.name,
            version := obj.version + 1, updated_at := now }
          else s)
    ∧ (update_student sid p now db).1.submissions = db.submissions := by
  have hpy : pyOrNat obj.version 1 = obj.version := by
    unfold pyOrNat
    rw [if_neg]
    omega
  unfold update_student
  rw [hfind]
  dsimp only
  rw [if_neg (fun hne => hne htok)]
  simp [hpy]

theorem update_success_appends_snapshot_scenario :
    (update_student "id1" ⟨"tok1", some "Alicia"⟩ 1
        (create_student ⟨some "Alice"⟩ "id1" "tok1" 0 dbEmpty).1).1.history
      = [⟨"id1", 1, ⟨"id1", none, none, some "Alice", 1, some 0⟩, 1⟩]
    ∧ (update_student "id1" ⟨"tok1", some "Alicia"⟩ 1
        (create_student ⟨some "Alice"⟩ "id1" "tok1" 0 dbEmpty).1).2
      = .ok ⟨"id1", some "Alicia", 2, 1⟩
    ∧ (update_student "id1" ⟨"tok1", some "Alicia"⟩ 1
        (create_student ⟨some "Alice"⟩ "id1" "tok1" 0 dbEmpty).1).1.students
      = [⟨"id1", none, none, some "Alicia", "tok1", 2, 1⟩]
    ∧ (update_student "id1" ⟨"tok1", some "Alicia"⟩ 1
        (create_student ⟨some "Alice"⟩ "id1" "tok1" 0 dbEmpty).1).1.submissions
      = [] := by
  have h := update_success_appends_snapshot "id1" ⟨"tok1", some "Alicia"⟩ 1
    (create_student ⟨some "Alice"⟩ "id1" "tok1" 0 dbEmpty).1
    ⟨"id1", none, none, some "Alice", "tok1", 1, 0⟩ rfl rfl (by decide)
  exact h

/-- C4: with the target record present, presenting a token different from
the stored edit_token makes the update fail with a 403 "invalid edit
token" and leave the whole store exactly as before the call, and an update
can only return a success value when the presented token equals the stored
edit_token. -/
theorem update_auth_spec (sid : String) (p : StudentUpdate) (now : Nat) (db : DB)
    (obj : Student)
    (hfind : db.students.find? (fun s => s.id == sid) = some obj) :
    (obj.edit_token ≠ p.edit_token →
      update_student sid p now db = (db, .error ⟨403, "invalid edit token"⟩))
    ∧ (∀ out, (update_student sid p now db).2 = Except.ok out
        → obj.edit_token = p.edit_token) := by
  constructor
  · intro hne
    unfold update_student
    rw [hfind]
    dsimp only
    rw [if_pos hne]
  · intro out hout
    by_contra hne
    unfold update_student at hout
    rw [hfind] at hout
    dsimp only at hout
    rw [if_pos hne] at hout
    exact Except.noConfusion hout

theorem update_auth_spec_instance :
    update_student "id1" ⟨"wrong", none⟩ 5
        ⟨[⟨"id1", none, none, some "Alice", "tok1", 1, 0⟩], [], []⟩
      = (⟨[⟨"id1", none, none, some "Alice", "tok1", 1, 0⟩], [], []⟩,
         .error ⟨403, "invalid edit token"⟩) :=
  (update_auth_spec "id1" ⟨"wrong", none⟩ 5
    ⟨[⟨"id1", none, none, some "Alice", "tok1", 1, 0⟩], [], []⟩
    ⟨"id1", none, none, some "Alice", "tok1", 1, 0⟩ rfl).1 (by decide)

/-- C9: an authorized update whose payload omits the name leaves the
record's name unchanged, yet still appends one history row, bumps the
version by 1 and refreshes updated_at to the clock reading: an authorized
update is never a no-op. -/
theorem update_without_name_not_noop (sid : String) (p : StudentUpdate)
    (now : Nat) (db : DB) (obj : Student)
    (hfind : db.students.find? (fun s => s.id == sid) = some obj)
    (htok : obj.edit_token = p.edit_token)
    (hname : p.name = none)
    (hver : 1 ≤ obj.version) :
    (update_student sid p now db).1.students
      = db.students.map (fun s => if s.id = sid then
          { obj with version := obj.version + 1, updated_at := now } else s)
    ∧ (update_student sid p now db).1.history
      = db.history ++ [⟨obj.id, obj.version,
          ⟨obj.id, obj.dob, obj.phone, obj.name, obj.version, some obj.updated_at⟩, now⟩]
    ∧ (update_student sid p now db).2 = .ok ⟨obj.id, obj.name, obj.version + 1, now⟩ := by
  have hpy : pyOrNat obj.version 1 = obj.version := by
    unfold pyOrNat
    rw [if_neg]
    omega
  unfold update_student
  rw [hfind]
  dsimp only
  rw [if_neg (fun hne => hne htok)]
  simp [hpy, hname]

theorem update_without_name_not_noop_instance :
    (update_student "id1" ⟨"tok1", none⟩ 9
        ⟨[⟨"id1", none, none, some "Alice", "tok1", 1, 0⟩], [], []⟩).1.students
      = [⟨"id1", none, none, some "Alice", "tok1", 2, 9⟩]
    ∧ (update_student "id1" ⟨"tok1", none⟩ 9
        ⟨[⟨"id1", none, none, some "Alice", "tok1", 1, 0⟩], [], []⟩).1.history
      = [⟨"id1", 1, ⟨"id1", none, none, some "Alice", 1, some 0⟩, 9⟩]
    ∧ (update_student "id1" ⟨"tok1", none⟩ 9
        ⟨[⟨"id1", none, none, some "Alice", "tok1", 1, 0⟩], [], []⟩).2
      = .ok ⟨"id1", some "Alice", 2, 9⟩ :=
  update_without_name_not_noop "id1" ⟨"tok1", none⟩ 9
    ⟨[⟨"id1", none, none, some "Alice", "tok1", 1, 0⟩], [], []⟩
    ⟨"id1", none, none, some "Alice", "tok1", 1, 0⟩ rfl rfl rfl (by decide)

/-- C3 is refuted as stated: in the code the mutation path (PUT,
`update_student`) does not upsert. Called on the empty store — so on an
absent id — it returns the 404 NotFound error and creates nothing, where
the claim says absence triggers creation and NotFoundError is never
returned from that path. -/
theorem update_absent_returns_not_found :
    update_student "id0" ⟨"tok", none⟩ 0 dbEmpty
      = (dbEmpty, .error ⟨404, "student not found"⟩) := rfl

/-- C3 (amended): creation and update are separate operations. An update
of an absent id fails with NotFoundError (404, "student not found") and
mutates nothing, while `create_student` on a generated id builds a Record
with version 1 and updated_at = now, stores the generated edit_token on the
record, returns it in the creation response (the only response shape that
has an edit_token field), and writes no history entry. -/
theorem create_fresh_and_absent_update (p : StudentUpdate) (sid : String)
    (now : Nat) (db : DB)
    (hnone : db.students.find? (fun s => s.id == sid) = none) :
    update_student sid p now db = (db, .error ⟨404, "student not found"⟩)
    ∧ ∀ (payload : StudentCreate) (gid tok : String),
        (create_student payload gid tok now db).1.students
          = db.students ++ [⟨gid, none, none, payload.name, tok, 1, now⟩]
        ∧ (create_student payload gid tok now db).1.history = db.history
        ∧ (create_student payload gid tok now db).2
          = ⟨gid, payload.name, 1, now, tok⟩ := by
  constructor
  · unfold update_student
    rw [hnone]
  · intro payload gid tok
    exact ⟨rfl, rfl, rfl⟩

theorem create_fresh_and_absent_update_instance :
    update_student "s1" ⟨"t", none⟩ 7 dbEmpty
      = (dbEmpty, .error ⟨404, "student not found"⟩)
    ∧ (create_student ⟨some "Bob"⟩ "g1" "tk" 7 dbEmpty).1.students
        = [⟨"g1", none, none, some "Bob", "tk", 1, 7⟩]
    ∧ (create_student ⟨some "Bob"⟩ "g1" "tk" 7 dbEmpty).1.history = []
    ∧ (create_student ⟨some "Bob"⟩ "g1" "tk" 7 dbEmpty).2
        = ⟨"g1", some "Bob", 1, 7, "tk"⟩ := by
  have h := create_fresh_and_absent_update ⟨"t", none⟩ "s1" 7 dbEmpty rfl
  exact ⟨h.1, (h.2 ⟨some "Bob"⟩ "g1" "tk").1, (h.2 ⟨some "Bob"⟩ "g1" "tk").2.1,
    (h.2 ⟨some "Bob"⟩ "g1" "tk").2.2⟩

/-- C7: creating a record and then fetching the returned id (with no
intervening update) yields exactly the field values of the creation
response for id, name, version and updated_at; the edit_token appears in
the creation response only — the `StudentOut` shape returned by get (and by
update) has no edit_token field at all. -/
theorem create_then_get_round_trip (payload : StudentCreate) (gid tok : String)
    (now : Nat) (db : DB) (hfresh : gid ∉ idsOf db) :
    get_student gid (create_student payload gid tok now db).1
      = .ok ⟨(create_student payload gid tok now db).2.id,
             (create_student payload gid tok now db).2.name,
             (create_student payload gid tok now db).2.version,
             (create_student payload gid tok now db).2.updated_at⟩
    ∧ (create_student payload gid tok now db).2.edit_token = tok := by
  refine ⟨?_, rfl⟩
  have hnone : db.students.find? (fun s => s.id == gid) = none := by
    rw [List.find?_eq_none]
    intro x hx
    simp only [beq_iff_eq]
    intro hcontra
    exact hfresh (hcontra ▸ List.mem_map_of_mem Student.id hx)
  have hfind : ((create_student payload gid tok now db).1).students.find?
      (fun s => s.id == gid)
      = some ⟨gid, none, none, payload.name, tok, 1, now⟩ := by
    show (db.students ++ ([⟨gid, none, none, payload.name, tok, 1, now⟩] : List Student)).find?
      (fun s => s.id == gid) = _
    rw [List.find?_append, hnone, Option.none_or]
    exact List.find?_cons_of_pos _ (by simp)
  unfold get_student
  rw [hfind]
  rfl

theorem create_then_get_round_trip_instance :
    get_student "g1" (create_student ⟨some "Alice"⟩ "g1" "tk" 3 dbEmpty).1
      = .ok ⟨(create_student ⟨some "Alice"⟩ "g1" "tk" 3 dbEmpty).2.id,
             (create_student ⟨some "Alice"⟩ "g1" "tk" 3 dbEmpty).2.name,
             (create_student ⟨some "Alice"⟩ "g1" "tk" 3 dbEmpty).2.version,
             (create_student ⟨some "Alice"⟩ "g1" "tk" 3 dbEmpty).2.updated_at⟩
    ∧ (create_student ⟨some "Alice"⟩ "g1" "tk" 3 dbEmpty).2.edit_token = "tk" :=
  create_then_get_round_trip ⟨some "Alice"⟩ "g1" "tk" 3 dbEmpty (by decide)

/-- C10: every submission stored by the append path carries
`google_sub = none` no matter what the request carries (and the disabled
authentication indeed resolves every caller to anonymous), the appended row
uses the generated id and the server clock reading as given, the payload is
stored unmodified, and no other table is touched. -/
theorem create_submission_anonymous (p : SubmissionIn) (req : Request)
    (gid : String) (now : Nat) (db : DB) :
    (create_submission p req gid now db).1.submissions
      = db.submissions ++ [⟨gid, none, p.payload, now⟩]
    ∧ (create_submission p req gid now db).2 = ⟨gid, now, p.payload⟩
    ∧ (create_submission p req gid now db).1.students = db.students
    ∧ (create_submission p req gid now db).1.history = db.history
    ∧ get_current_user req = none :=
  ⟨rfl, rfl, rfl, rfl, rfl⟩

/-- C6: on inputs meeting the validation checks, `build_student_id`
returns the plain concatenation of dob and phone; being a pure function of
its two arguments, two calls on identical inputs return identical ids. -/
theorem build_student_id_concat (dob phone : String)
    (hdob : dob.length = 8 ∧ isPyDigitStr dob = true)
    (hphone : isPyDigitStr phone = true ∧ 7 ≤ phone.length) :
    build_student_id dob phone = .ok (dob ++ phone) := by
  unfold build_student_id
  rw [if_neg (not_not_intro hdob), if_neg (not_not_intro hphone)]

theorem build_student_id_concat_instance :
    build_student_id "20010403" "09012345678" = .ok "2001040309012345678" :=
  build_student_id_concat "20010403" "09012345678" (by decide) (by decide)


/-- C5 is refuted as stated: the code enforces no upper length bound on
phone, while the claim's iff requires failure whenever phone does not match
`^\\d\x7b7,20\x7d$`. A 21-digit phone violates that pattern, yet
`build_student_id` accepts it and returns the concatenated id instead of a
ValidationError. -/
theorem build_student_id_accepts_long_phone :
    specPhoneOk "111111111111111111111" = false
    ∧ build_student_id "20010403" "111111111111111111111"
        = .ok "20010403111111111111111111111" := by
  constructor
  · rfl
  · rfl

lemma specDobOk_iff (s : String) :
    specDobOk s = true ↔ (s.length = 8 ∧ isPyDigitStr s = true) := by
  unfold specDobOk isPyDigitStr
  simp only [Bool.and_eq_true, decide_eq_true_eq, bne_iff_ne, ne_eq]
  constructor
  · rintro ⟨h8, hall⟩
    exact ⟨h8, ⟨by omega, hall⟩⟩
  · rintro ⟨h8, -, hall⟩
    exact ⟨h8, hall⟩

/-- C5 (amended): `build_student_id` fails with a ValueError naming the
offending field exactly when dob does not match `^\\d\x7b8\x7d$` or phone is
not a digits-only string of length at least 7 — with no upper bound on the
phone length. The function takes no store argument at all, so a validation
failure creates no record. -/
theorem build_student_id_error_characterization (dob phone : String) :
    ((∃ e, build_student_id dob phone = Except.error e)
      ↔ (specDobOk dob = false ∨ ¬ (isPyDigitStr phone = true ∧ 7 ≤ phone.length)))
    ∧ (specDobOk dob = false →
        build_student_id dob phone = .error "Invalid dob: expect YYYYMMDD digits")
    ∧ (specDobOk dob = true →
        ¬ (isPyDigitStr phone = true ∧ 7 ≤ phone.length) →
        build_student_id dob phone
          = .error "Invalid phone: expect digits only >=7 length") := by
  have hsd := specDobOk_iff dob
  by_cases hd : dob.length = 8 ∧ isPyDigitStr dob = true
  · have hsdt : specDobOk dob = true := hsd.mpr hd
    by_cases hp : isPyDigitStr phone = true ∧ 7 ≤ phone.length
    · have hok : build_student_id dob phone = .ok (dob ++ phone) := by
        unfold build_student_id
        rw [if_neg (not_not_intro hd), if_neg (not_not_intro hp)]
      refine ⟨?_, ?_, ?_⟩
      · constructor
        · rintro ⟨e, he⟩
          rw [hok] at he
          exact Except.noConfusion he
        · rintro (hfalse | hnp)
          · rw [hsdt] at hfalse
            exact Bool.noConfusion hfalse
          · exact absurd hp hnp
      · intro hfalse
        rw [hsdt] at hfalse
        exact Bool.noConfusion hfalse
      · intro _ hnp
        exact absurd hp hnp
    · have herr : build_student_id dob phone
          = .error "Invalid phone: expect digits only >=7 length" := by
        unfold build_student_id
        rw [if_neg (not_not_intro hd), if_pos hp]
      refine ⟨?_, ?_, ?_⟩
      · constructor
        · intro _
          exact Or.inr hp
        · intro _
          exact ⟨_, herr⟩
      · intro hfalse
        rw [hsdt] at hfalse
        exact Bool.noConfusion hfalse
      · intro _ _
        exact herr
  · have hsdf : specDobOk dob = false := by
      cases hb : specDobOk dob
      · rfl
      · exact absurd (hsd.mp hb) hd
    have herr : build_student_id dob phone
        = .error "Invalid dob: expect YYYYMMDD digits" := by
      unfold build_student_id
      rw [if_pos hd]
    refine ⟨?_, ?_, ?_⟩
    · constructor
      · intro _
        exact Or.inl hsdf
      · intro _
        exact ⟨_, herr⟩
    · intro _
      exact herr
    · intro ht _
      rw [hsdf] at ht
      exact Bool.noConfusion ht

theorem build_student_id_error_characterization_instance :
    build_student_id "2001-04-03" "09012345678"
      = .error "Invalid dob: expect YYYYMMDD digits" :=
  (build_student_id_error_characterization "2001-04-03" "09012345678").2.1 (by rfl)

/-- C8: the public submissions listing is a finite sequence ordered newest
first by created_at, has at most 50 entries, and contains only projections
of submissions present in the store. -/
theorem list_submissions_spec (req : Request) (db : DB) :
    (list_submissions req db).length ≤ 50
    ∧ (list_submissions req db).Pairwise (fun a b => b.created_at ≤ a.created_at)
    ∧ ∀ o ∈ list_submissions req db, ∃ r ∈ db.submissions, o = toSubmissionOut r := by
  refine ⟨?_, ?_, ?_⟩
  · unfold list_submissions
    rw [List.length_map]
    exact List.length_take_le 50 _
  · unfold list_submissions
    rw [List.pairwise_map]
    have htake := List.Pairwise.sublist (List.take_sublist 50 _)
      (List.sorted_insertionSort submDesc db.submissions)
    exact htake.imp (fun h => h)
  · intro o ho
    unfold list_submissions at ho
    rw [List.mem_map] at ho
    obtain ⟨r, hr, hor⟩ := ho
    refine ⟨r, ?_, hor.symm⟩
    have h1 : r ∈ List.insertionSort submDesc db.submissions :=
      (List.take_sublist 50 _).subset hr
    exact (List.perm_insertionSort submDesc db.submissions).mem_iff.mp h1
